import Mathlib

/-!
Verification of the conversation state synchronization engine of the
bot-gpt frontend (React client). The definitions below are a shallow
embedding of the relevant code:

* `frontend/src/features/conversation/ConversationWindow.tsx` —
  message reconciliation (`addMessage`, the socket `messageHandler`,
  `handleSend` and its response/failure handlers), the document status
  tracker (`loadConversation` processing-set computation,
  `docProcessedHandler`), grounding selection
  (`toggleDocumentSelection`, `isDocumentReady`, the document click
  handler) and the conversation-switch effects.
* `frontend/src/services/socket.ts` — handler (un)registration on the
  socket.io connection.

JavaScript optional fields are modelled with `Option`; JS truthiness of
an optional string (absent or empty string is falsy) is `strTruthy`;
the `embedding` field is `number[] | null | undefined` in the source,
so its JS truthiness coincides with `Option.isSome` (an array, even
empty, is truthy). Sets (`Set<string>`) are modelled as `Finset String`.
-/

set_option linter.unusedVariables false

namespace BotGpt

/-- Message role, from `types/index.ts`: `"user" | "assistant" | "system"`. -/
inductive Role
  | user
  | assistant
  | system
deriving DecidableEq, Repr

/-- `Message` from `types/index.ts` (the optional `metadata` field is never
read by the synchronization code and is omitted). -/
structure Message where
  id : String
  conversation_id : String
  role : Role
  content : String
  created_at : String
deriving DecidableEq, Repr

/-- `Document` from `types/index.ts`. `content_snippet?: string` and
`embedding?: number[] | null` are optional fields. -/
structure Document where
  id : String
  conversation_id : Option String
  filename : String
  file_path : String
  content_snippet : Option String
  created_at : String
  embedding : Option (List Int)
deriving DecidableEq, Repr

/-- JS truthiness of an optional string: `undefined`, `null` and `""` are
falsy, every other string is truthy. -/
def strTruthy : Option String → Bool
  | none => false
  | some s => s ≠ ""

/-- Whether the snippet starts with the "Processed" prefix, i.e. the JS
expression `doc.content_snippet.startsWith("Processed")` (only ever
evaluated behind a truthiness guard in the source); stated on the
character list so it evaluates by kernel reduction. -/
def snippetStartsWithProcessed (doc : Document) : Bool :=
  match doc.content_snippet with
  | none => false
  | some s => List.isPrefixOf "Processed".toList s.toList

/-- `addMessage` from `ConversationWindow.tsx` (lines 36–45): append the
new message unless a message with the same identifier already exists. -/
def addMessage (prev : List Message) (newMessage : Message) : List Message :=
  if prev.any (fun m => m.id = newMessage.id) then prev
  else prev ++ [newMessage]

/-- The socket `new_message` handler from `ConversationWindow.tsx`
(lines 161–170): messages of role `user` are skipped; every other role is
folded in through the deduplicating `addMessage`. -/
def messageHandler (messages : List Message) (data : Message) : List Message :=
  if data.role ≠ Role.user then addMessage messages data
  else messages

/-- The success branch of `handleSend` (lines 243–251): drop the message
with the temporary identifier, then append the server-returned message
unless its identifier is already present. -/
def handleSendResponse (tempId : String) (response : Message)
    (prev : List Message) : List Message :=
  let filtered := prev.filter (fun m => m.id ≠ tempId)
  if filtered.any (fun m => m.id = response.id) then filtered
  else filtered ++ [response]

/-- A toast notification as emitted by `showToast(text, kind)`. -/
structure Toast where
  text : String
  kind : String
deriving DecidableEq, Repr

/-- Result of the `catch` branch of `handleSend`: the message list after
rollback, the toasts shown, and the send requests re-issued (the source
issues none — there is no automatic retry). -/
structure SendFailureResult where
  messages : List Message
  toasts : List Toast
  reissuedSends : List String
deriving DecidableEq, Repr

/-- The failure branch of `handleSend` (lines 252–256): remove the
temporary message and surface a failure toast; no retry is issued. -/
def handleSendFailure (tempId : String) (prev : List Message) :
    SendFailureResult :=
  { messages := prev.filter (fun m => m.id ≠ tempId)
    toasts := [⟨"Failed to send message", "error"⟩]
    reissuedSends := [] }

/-- The three producers that insert messages into the active message list:
the optimistic insert in `handleSend` (line 229, via `addMessage`), the
send-response reconciliation (lines 243–251), and a push delivery through
the socket `messageHandler` (lines 161–170). -/
inductive InsertOp
  | optimistic (m : Message)
  | response (tempId : String) (m : Message)
  | push (m : Message)
deriving DecidableEq, Repr

/-- Apply one insertion, as the corresponding source code path does. -/
def applyInsert (messages : List Message) : InsertOp → List Message
  | InsertOp.optimistic m => addMessage messages m
  | InsertOp.response tempId m => handleSendResponse tempId m messages
  | InsertOp.push m => messageHandler messages m

/-- The message-identifier uniqueness invariant of a message list. -/
def idsNodup (messages : List Message) : Prop :=
  (messages.map Message.id).Nodup

instance (messages : List Message) : Decidable (idsNodup messages) :=
  inferInstanceAs (Decidable ((messages.map Message.id).Nodup))

lemma mem_ids_of_any {prev : List Message} {i : String}
    (h : prev.any (fun m => m.id = i) = true) : i ∈ prev.map Message.id := by
  rcases List.any_eq_true.mp h with ⟨m, hm, heq⟩
  exact List.mem_map.mpr ⟨m, hm, of_decide_eq_true heq⟩

lemma not_mem_ids_of_not_any {prev : List Message} {i : String}
    (h : prev.any (fun m => m.id = i) = false) : i ∉ prev.map Message.id := by
  intro hmem
  rcases List.mem_map.mp hmem with ⟨m, hm, heq⟩
  have : prev.any (fun m => m.id = i) = true :=
    List.any_eq_true.mpr ⟨m, hm, decide_eq_true heq⟩
  simp [this] at h

lemma addMessage_of_mem {prev : List Message} {m : Message}
    (h : m.id ∈ prev.map Message.id) : addMessage prev m = prev := by
  unfold addMessage
  rcases List.mem_map.mp h with ⟨m0, hm0, heq⟩
  have : prev.any (fun x => x.id = m.id) = true :=
    List.any_eq_true.mpr ⟨m0, hm0, decide_eq_true heq⟩
  simp [this]

lemma addMessage_of_not_mem {prev : List Message} {m : Message}
    (h : m.id ∉ prev.map Message.id) : addMessage prev m = prev ++ [m] := by
  unfold addMessage
  cases hany : prev.any (fun x => x.id = m.id) with
  | true => exact absurd (mem_ids_of_any hany) h
  | false => simp

lemma idsNodup_addMessage {prev : List Message} (m : Message)
    (h : idsNodup prev) : idsNodup (addMessage prev m) := by
  by_cases hmem : m.id ∈ prev.map Message.id
  · rw [addMessage_of_mem hmem]; exact h
  · rw [addMessage_of_not_mem hmem]
    unfold idsNodup
    rw [List.map_append]
    exact List.Nodup.append h (List.nodup_singleton _)
      (by simpa [List.disjoint_singleton] using hmem)

lemma idsNodup_filter {prev : List Message} (p : Message → Bool)
    (h : idsNodup prev) : idsNodup (prev.filter p) :=
  ((List.filter_sublist prev).map Message.id).nodup h

lemma idsNodup_handleSendResponse {prev : List Message}
    (tempId : String) (m : Message) (h : idsNodup prev) :
    idsNodup (handleSendResponse tempId m prev) := by
  have hf : idsNodup (prev.filter (fun x => x.id ≠ tempId)) :=
    idsNodup_filter _ h
  have hz : handleSendResponse tempId m prev =
      if (prev.filter (fun x => x.id ≠ tempId)).any (fun x => x.id = m.id)
      then prev.filter (fun x => x.id ≠ tempId)
      else prev.filter (fun x => x.id ≠ tempId) ++ [m] := rfl
  rw [hz]
  cases hany : (prev.filter (fun x => x.id ≠ tempId)).any
      (fun x => x.id = m.id) with
  | true => simpa using hf
  | false =>
      simp only [Bool.false_eq_true, if_false]
      have hnm := not_mem_ids_of_not_any hany
      unfold idsNodup
      rw [List.map_append]
      exact List.Nodup.append hf (List.nodup_singleton _)
        (by simpa [List.disjoint_singleton] using hnm)

lemma idsNodup_applyInsert {prev : List Message} (op : InsertOp)
    (h : idsNodup prev) : idsNodup (applyInsert prev op) := by
  cases op with
  | optimistic m => exact idsNodup_addMessage m h
  | response tempId m => exact idsNodup_handleSendResponse tempId m h
  | push m =>
      show idsNodup (messageHandler prev m)
      by_cases hr : m.role = Role.user
      · simpa [messageHandler, hr] using h
      · simpa [messageHandler, hr] using idsNodup_addMessage m h

/-- C1: starting from a message list whose identifiers are unique, any
sequence of insertions — optimistic inserts, send-response
reconciliations, push deliveries, in any mix — preserves uniqueness of
identifiers; moreover appending a message whose identifier is already
present (via `addMessage`) leaves the list unchanged. -/
theorem message_ids_unique_under_any_insert_mix
    (s0 : List Message) (ops : List InsertOp) (h : idsNodup s0) :
    idsNodup (ops.foldl applyInsert s0) ∧
      ∀ m : Message, m.id ∈ s0.map Message.id → addMessage s0 m = s0 := by
  constructor
  · induction ops generalizing s0 with
    | nil => exact h
    | cons op rest ih =>
        exact ih (applyInsert s0 op) (idsNodup_applyInsert op h)
  · intro m hm
    exact addMessage_of_mem hm

/-- Witness for C1 at a concrete mix of concrete insertions. -/
theorem message_ids_unique_under_any_insert_mix_witness :
    idsNodup [Message.mk "m1" "c1" Role.user "hi" "t0"] ∧
      (idsNodup
        ([InsertOp.optimistic (Message.mk "temp-1" "c1" Role.user "yo" "t1"),
          InsertOp.push (Message.mk "m2" "c1" Role.assistant "hello" "t2"),
          InsertOp.push (Message.mk "m2" "c1" Role.assistant "hello" "t2"),
          InsertOp.response "temp-1"
            (Message.mk "m3" "c1" Role.user "yo" "t3")].foldl
          applyInsert [Message.mk "m1" "c1" Role.user "hi" "t0"]) ∧
        ∀ m : Message,
          m.id ∈ [Message.mk "m1" "c1" Role.user "hi" "t0"].map Message.id →
            addMessage [Message.mk "m1" "c1" Role.user "hi" "t0"] m =
              [Message.mk "m1" "c1" Role.user "hi" "t0"]) :=
  ⟨by decide,
    message_ids_unique_under_any_insert_mix
      [Message.mk "m1" "c1" Role.user "hi" "t0"]
      [InsertOp.optimistic (Message.mk "temp-1" "c1" Role.user "yo" "t1"),
        InsertOp.push (Message.mk "m2" "c1" Role.assistant "hello" "t2"),
        InsertOp.push (Message.mk "m2" "c1" Role.assistant "hello" "t2"),
        InsertOp.response "temp-1" (Message.mk "m3" "c1" Role.user "yo" "t3")]
      (by decide)⟩

/-- C2: a push-delivered `new_message` of role `user` is never applied to
the message list (even when its identifier is fresh), while a message of
any other role (assistant/system) is folded in through the deduplicating
`addMessage`. -/
theorem push_user_suppressed_other_roles_appended
    (messages : List Message) (data : Message) :
    (data.role = Role.user → messageHandler messages data = messages) ∧
      (data.role ≠ Role.user →
        messageHandler messages data = addMessage messages data) := by
  constructor
  · intro h; simp [messageHandler, h]
  · intro h; simp [messageHandler, h]

/-- Witness for C2: a fresh-id user push is dropped, an assistant push is
appended. -/
theorem push_user_suppressed_other_roles_appended_witness :
    messageHandler [] (Message.mk "u9" "c1" Role.user "hi" "t") = [] ∧
      messageHandler [] (Message.mk "a9" "c1" Role.assistant "yo" "t") =
        addMessage [] (Message.mk "a9" "c1" Role.assistant "yo" "t") :=
  ⟨(push_user_suppressed_other_roles_appended []
      (Message.mk "u9" "c1" Role.user "hi" "t")).1 rfl,
    (push_user_suppressed_other_roles_appended []
      (Message.mk "a9" "c1" Role.assistant "yo" "t")).2 (by decide)⟩

lemma filter_ne_id_of_not_mem {l : List Message} {i : String}
    (h : i ∉ l.map Message.id) : l.filter (fun m => m.id ≠ i) = l := by
  apply List.filter_eq_self.mpr
  intro m hm
  exact decide_eq_true (fun he => h (List.mem_map.mpr ⟨m, hm, he⟩))

lemma handleSendResponse_fresh {l : List Message} {tempId : String}
    {response : Message}
    (hl : l.filter (fun m => m.id ≠ tempId) = l)
    (hfresh : response.id ∉ l.map Message.id) :
    handleSendResponse tempId response l = l ++ [response] := by
  have hz : handleSendResponse tempId response l =
      if (l.filter (fun m => m.id ≠ tempId)).any (fun m => m.id = response.id)
      then l.filter (fun m => m.id ≠ tempId)
      else l.filter (fun m => m.id ≠ tempId) ++ [response] := rfl
  rw [hz, hl]
  cases hany : l.any (fun m => m.id = response.id) with
  | true => exact absurd (mem_ids_of_any hany) hfresh
  | false => simp

/-- The Boolean test used to count user messages of a given content. -/
def isUserWithContent (c : String) (m : Message) : Bool :=
  m.role == Role.user && m.content == c

/-- C3: the optimistic send (`addMessage` of a temp-id user message,
line 229) followed by the response reconciliation (lines 243–251) on a list
where the temp id and the server id are fresh and no user message with that
content exists yet: the temp message is removed, the server message is
appended, and the final list holds exactly one user message with that
content, carrying the server identifier — never two. -/
theorem optimistic_then_ack_single_user_message
    (s0 : List Message) (temp response : Message) (c tempId serverId : String)
    (htid : temp.id = tempId) (hsid : response.id = serverId)
    (hsrole : response.role = Role.user) (hscont : response.content = c)
    (hfreshT : tempId ∉ s0.map Message.id)
    (hfreshS : serverId ∉ s0.map Message.id)
    (hnone : ∀ m ∈ s0, isUserWithContent c m = false) :
    handleSendResponse tempId response (addMessage s0 temp) =
        s0 ++ [response] ∧
      (handleSendResponse tempId response (addMessage s0 temp)).countP
        (isUserWithContent c) = 1 ∧
      ∀ m ∈ handleSendResponse tempId response (addMessage s0 temp),
        isUserWithContent c m = true → m.id = serverId := by
  have hadd : addMessage s0 temp = s0 ++ [temp] :=
    addMessage_of_not_mem (by rw [htid]; exact hfreshT)
  have hfilt : (s0 ++ [temp]).filter (fun m => m.id ≠ tempId) = s0 := by
    rw [List.filter_append, filter_ne_id_of_not_mem hfreshT]
    simp [htid]
  have hfilt2 : (s0 ++ [temp]).filter (fun m => m.id ≠ tempId) =
      (s0 ++ [temp]).filter (fun m => m.id ≠ tempId) := rfl
  have hmain : handleSendResponse tempId response (addMessage s0 temp) =
      s0 ++ [response] := by
    rw [hadd]
    have hz : handleSendResponse tempId response (s0 ++ [temp]) =
        if ((s0 ++ [temp]).filter (fun m => m.id ≠ tempId)).any
            (fun m => m.id = response.id)
        then (s0 ++ [temp]).filter (fun m => m.id ≠ tempId)
        else (s0 ++ [temp]).filter (fun m => m.id ≠ tempId) ++ [response] :=
      rfl
    rw [hz, hfilt]
    cases hany : s0.any (fun m => m.id = response.id) with
    | true =>
        exact absurd (mem_ids_of_any hany) (by rw [hsid]; exact hfreshS)
    | false => simp
  refine ⟨hmain, ?_, ?_⟩
  · rw [hmain, List.countP_append]
    have h0 : s0.countP (isUserWithContent c) = 0 := by
      apply List.countP_eq_zero.mpr
      intro m hm
      simp [hnone m hm]
    have h1 : isUserWithContent c response = true := by
      simp [isUserWithContent, hsrole, hscont]
    simp [h0, h1]
  · rw [hmain]
    intro m hm hp
    rcases List.mem_append.mp hm with hin | hin
    · rw [hnone m hin] at hp; exact absurd hp (by simp)
    · rw [List.mem_singleton.mp hin]; exact hsid

/-- Witness for C3 on a concrete send of "hi". -/
theorem optimistic_then_ack_single_user_message_witness :
    handleSendResponse "temp-1" (Message.mk "m7" "c1" Role.user "hi" "t2")
        (addMessage [Message.mk "m1" "c1" Role.assistant "welcome" "t0"]
          (Message.mk "temp-1" "c1" Role.user "hi" "t1")) =
      [Message.mk "m1" "c1" Role.assistant "welcome" "t0"] ++
        [Message.mk "m7" "c1" Role.user "hi" "t2"] ∧
    (handleSendResponse "temp-1" (Message.mk "m7" "c1" Role.user "hi" "t2")
        (addMessage [Message.mk "m1" "c1" Role.assistant "welcome" "t0"]
          (Message.mk "temp-1" "c1" Role.user "hi" "t1"))).countP
      (isUserWithContent "hi") = 1 ∧
    ∀ m ∈ handleSendResponse "temp-1"
        (Message.mk "m7" "c1" Role.user "hi" "t2")
        (addMessage [Message.mk "m1" "c1" Role.assistant "welcome" "t0"]
          (Message.mk "temp-1" "c1" Role.user "hi" "t1")),
      isUserWithContent "hi" m = true → m.id = "m7" :=
  optimistic_then_ack_single_user_message
    [Message.mk "m1" "c1" Role.assistant "welcome" "t0"]
    (Message.mk "temp-1" "c1" Role.user "hi" "t1")
    (Message.mk "m7" "c1" Role.user "hi" "t2")
    "hi" "temp-1" "m7" rfl rfl rfl rfl (by decide) (by decide) (by decide)

/-- C4: if the send request fails, the catch branch removes the
temp-identifier message, so the list returns exactly to its state before
the optimistic insert; one failure toast is surfaced and no send request is
re-issued (no automatic retry). -/
theorem send_failure_rolls_back_optimistic_insert
    (s0 : List Message) (temp : Message) (tempId : String)
    (htid : temp.id = tempId) (hfresh : tempId ∉ s0.map Message.id) :
    handleSendFailure tempId (addMessage s0 temp) =
      ⟨s0, [⟨"Failed to send message", "error"⟩], []⟩ := by
  have hadd : addMessage s0 temp = s0 ++ [temp] :=
    addMessage_of_not_mem (by rw [htid]; exact hfresh)
  have hfilt : (s0 ++ [temp]).filter (fun m => m.id ≠ tempId) = s0 := by
    rw [List.filter_append, filter_ne_id_of_not_mem hfresh]
    simp [htid]
  rw [handleSendFailure, hadd, hfilt]

/-- Witness for C4 on a concrete failed send. -/
theorem send_failure_rolls_back_optimistic_insert_witness :
    handleSendFailure "temp-9"
        (addMessage [Message.mk "m1" "c1" Role.assistant "welcome" "t0"]
          (Message.mk "temp-9" "c1" Role.user "oops" "t1")) =
      ⟨[Message.mk "m1" "c1" Role.assistant "welcome" "t0"],
        [⟨"Failed to send message", "error"⟩], []⟩ :=
  send_failure_rolls_back_optimistic_insert
    [Message.mk "m1" "c1" Role.assistant "welcome" "t0"]
    (Message.mk "temp-9" "c1" Role.user "oops" "t1")
    "temp-9" rfl (by decide)

/-- JS `Set` membership (`set.has(x)`); insertion-ordered sets are
modelled as duplicate-free lists. -/
def setHas (s : List String) (x : String) : Bool := x ∈ s

/-- JS `Set.add`: append if absent. -/
def setAdd (s : List String) (x : String) : List String :=
  if x ∈ s then s else s ++ [x]

/-- JS `Set.delete`: remove the element. -/
def setDelete (s : List String) (x : String) : List String :=
  s.filter (fun y => y ≠ x)

/-- The processing test from `loadConversation` (lines 141–144) and the
`conversation` effect (lines 88–89):
`doc.content_snippet === "Processing..." || (doc.content_snippet &&
!doc.content_snippet.startsWith("Processed") && !doc.embedding)`.
Since `embedding` is `number[] | null | undefined`, `!doc.embedding` is
true exactly when the field is absent. -/
def isProcessingDoc (doc : Document) : Bool :=
  (doc.content_snippet == some "Processing...") ||
    (strTruthy doc.content_snippet && !snippetStartsWithProcessed doc &&
      doc.embedding.isNone)

/-- `isDocumentReady` from `ConversationWindow.tsx` (lines 315–330). -/
def isDocumentReady (doc : Document) : Bool :=
  if doc.content_snippet == some "Processing..." then false
  else if strTruthy doc.content_snippet && snippetStartsWithProcessed doc
  then true
  else if doc.embedding.isSome then true
  else false

/-- One step of building a JS `Map` by `map.set(k, v)`: overwrite the value
of an existing key (keeping its insertion position), otherwise append. -/
def mapSet (entries : List (String × Document)) (k : String) (v : Document) :
    List (String × Document) :=
  if entries.any (fun p => p.1 = k) then
    entries.map (fun p => if p.1 = k then (k, v) else p)
  else entries ++ [(k, v)]

/-- `Array.from(new Map(docs.map(doc => [doc.id, doc])).values())` — the
document de-duplication of `loadConversation` (lines 126–128) and the
`conversation` effect (lines 72–74): keys keep first-occurrence order, the
value for a key is the last document carrying it. -/
def dedupeById (docs : List Document) : List Document :=
  (docs.foldl (fun entries doc => mapSet entries doc.id doc) []).map Prod.snd

/-- The `forEach` that rebuilds the processing set from a document batch
(lines 137–145): start from an empty set, add each document that tests as
processing. -/
def computeProcessing (docs : List Document) : List String :=
  docs.foldl
    (fun acc doc => if isProcessingDoc doc then setAdd acc doc.id else acc) []

/-- The component state of `ConversationWindow` that the synchronization
core mutates. -/
structure WindowState where
  messages : List Message
  documents : List Document
  selectedDocIds : List String
  processingDocs : List String
deriving DecidableEq, Repr

/-- The payload of `conversationsApi.get` (and of the preloaded recoil
`conversation` object): identifier plus messages and documents; the
source's `data.messages || []` / `data.documents || []` defaults are folded
into the list type. -/
structure ConversationData where
  id : String
  messages : List Message
  documents : List Document
deriving DecidableEq, Repr

/-- The success path of `loadConversation` (lines 122–146) applied when the
response arrives: set messages, set de-duplicated documents, recompute the
processing set. The source consults no conversation identifier here — the
response is applied unconditionally. -/
def loadConversationResponse (data : ConversationData) (s : WindowState) :
    WindowState :=
  let uniqueDocs := dedupeById data.documents
  { s with
    messages := data.messages
    documents := uniqueDocs
    processingDocs := computeProcessing uniqueDocs }

/-- The `conversation` effect (lines 67–99): same replacement of messages,
documents and processing set from the preloaded conversation object. It
does not write `selectedDocIds`. -/
def conversationEffect (conversation : ConversationData) (s : WindowState) :
    WindowState :=
  let uniqueDocs := dedupeById conversation.documents
  { s with
    messages := conversation.messages
    documents := uniqueDocs
    processingDocs := computeProcessing uniqueDocs }

/-- The component-state part of a conversation switch while the component
stays mounted (`DashboardPage.tsx` renders
`ConversationWindow conversationId=selectedId` without a `key`, so
`useState` state survives the switch): the `conversationId` effect cleanup
(lines 53–64) touches only the socket; then the `conversation` effect and
the `loadConversation` response replace messages, documents and the
processing set. No code path writes `selectedDocIds` during a switch. -/
def switchConversation (newConv : ConversationData) (s : WindowState) :
    WindowState :=
  loadConversationResponse newConv (conversationEffect newConv s)

/-- A `doc_processed` push event payload
(`{ doc_id?: string; status?: string; chunks?: number }`). -/
structure DocProcessedEvent where
  doc_id : Option String
  status : Option String
  chunks : Option Nat
deriving DecidableEq, Repr

/-- What the `doc_processed` handler produced: the new component state,
whether the delayed conversation reload was scheduled, and the toasts
shown. -/
structure DocProcessedResult where
  state : WindowState
  reloadScheduled : Bool
  toasts : List Toast
deriving DecidableEq, Repr

/-- `docProcessedHandler` from `ConversationWindow.tsx` (lines 175–199):
`if (data.doc_id)` (JS truthiness) removes the identifier from the
processing set, schedules one delayed reload and shows a success toast;
otherwise the event is logged and ignored. `data.chunks || 0` is the
chunk-count default. -/
def docProcessedHandler (data : DocProcessedEvent) (s : WindowState) :
    DocProcessedResult :=
  if strTruthy data.doc_id then
    { state :=
        { s with
          processingDocs := setDelete s.processingDocs (data.doc_id.getD "") }
      reloadScheduled := true
      toasts := [⟨"Document processed successfully! " ++
        toString (data.chunks.getD 0) ++ " chunks indexed. Ready to use.",
        "success"⟩] }
  else
    { state := s, reloadScheduled := false, toasts := [] }

/-- `toggleDocumentSelection` from `ConversationWindow.tsx`
(lines 300–313): flip membership in the selection set. -/
def toggleDocumentSelection (prev : List String) (docId : String) :
    List String :=
  if setHas prev docId then setDelete prev docId else setAdd prev docId

/-- The click path that invokes the toggle (line 407):
`onClick=() => isReady 'and-then' toggleDocumentSelection(doc.id)` — the
toggle only runs when `isDocumentReady doc` holds. -/
def handleDocumentClick (doc : Document) (sel : List String) : List String :=
  if isDocumentReady doc then toggleDocumentSelection sel doc.id else sel

lemma mapSet_mem_snd {P : Document → Prop}
    {entries : List (String × Document)} {k : String} {v : Document}
    (hacc : ∀ p ∈ entries, P p.2) (hv : P v) :
    ∀ p ∈ mapSet entries k v, P p.2 := by
  intro p hp
  unfold mapSet at hp
  split at hp
  · rcases List.mem_map.mp hp with ⟨q, hq, hpe⟩
    by_cases hqk : q.1 = k
    · rw [if_pos hqk] at hpe
      rw [← hpe]
      exact hv
    · rw [if_neg hqk] at hpe
      rw [← hpe]
      exact hacc q hq
  · rcases List.mem_append.mp hp with h1 | h1
    · exact hacc p h1
    · rw [List.mem_singleton.mp h1]
      exact hv

lemma foldl_mapSet_mem (docs : List Document) (P : Document → Prop) :
    ∀ acc : List (String × Document), (∀ p ∈ acc, P p.2) →
      (∀ d ∈ docs, P d) →
      ∀ p ∈ docs.foldl (fun es doc => mapSet es doc.id doc) acc, P p.2 := by
  induction docs with
  | nil => intro acc hacc _ p hp; exact hacc p hp
  | cons d rest ih =>
      intro acc hacc hl p hp
      exact ih (mapSet acc d.id d)
        (mapSet_mem_snd hacc (hl d (List.mem_cons_self d rest)))
        (fun x hx => hl x (List.mem_cons_of_mem d hx)) p hp

lemma mem_dedupeById {docs : List Document} {d : Document}
    (h : d ∈ dedupeById docs) : d ∈ docs := by
  unfold dedupeById at h
  rcases List.mem_map.mp h with ⟨p, hp, hpd⟩
  have hmem := foldl_mapSet_mem docs (fun x => x ∈ docs) []
    (by simp) (fun x hx => hx) p hp
  rw [← hpd]
  exact hmem

lemma computeProcessing_eq_nil {docs : List Document}
    (h : ∀ d ∈ docs, isProcessingDoc d = false) :
    computeProcessing docs = [] := by
  unfold computeProcessing
  have haux : ∀ l : List Document, (∀ d ∈ l, isProcessingDoc d = false) →
      ∀ acc : List String,
        l.foldl
          (fun acc doc =>
            if isProcessingDoc doc then setAdd acc doc.id else acc) acc =
          acc := by
    intro l
    induction l with
    | nil => intro _ acc; rfl
    | cons d rest ih =>
        intro hl acc
        have hd := hl d (List.mem_cons_self d rest)
        simp only [List.foldl_cons, hd, Bool.false_eq_true, if_false]
        exact ih (fun x hx => hl x (List.mem_cons_of_mem d hx)) acc
  exact haux docs h []

/-- C5's counterexample: `loadConversation` applies a fetched conversation
whose identifier ("A") differs from the active one ("B") — the state is
mutated, not discarded, because the response handler performs no identity
check. -/
theorem stale_fetch_overwrites_after_switch_concrete :
    (ConversationData.mk "A"
        [Message.mk "ma" "A" Role.assistant "old" "t"] []).id ≠ "B" ∧
      loadConversationResponse
          (ConversationData.mk "A"
            [Message.mk "ma" "A" Role.assistant "old" "t"] [])
          (WindowState.mk [] [] [] []) ≠
        WindowState.mk [] [] [] [] := by
  constructor
  · decide
  · intro hcontra
    have hmsg := congrArg WindowState.messages hcontra
    simp [loadConversationResponse] at hmsg

/-- C5 amended: the response handler of the conversation fetch applies the
fetched data unconditionally — even when the response's conversation
identifier differs from the active one, messages, documents and the
processing set are overwritten with the response's data; no staleness
check exists. -/
theorem fetch_response_applied_without_identity_check
    (active : String) (data : ConversationData) (s : WindowState)
    (hstale : data.id ≠ active) :
    (loadConversationResponse data s).messages = data.messages ∧
      (loadConversationResponse data s).documents =
        dedupeById data.documents ∧
      (loadConversationResponse data s).processingDocs =
        computeProcessing (dedupeById data.documents) :=
  ⟨rfl, rfl, rfl⟩

/-- Witness for the amended C5 at a concrete stale response. -/
theorem fetch_response_applied_without_identity_check_witness :
    (ConversationData.mk "A"
        [Message.mk "ma" "A" Role.assistant "old" "t"] []).id ≠ "B" ∧
      ((loadConversationResponse
            (ConversationData.mk "A"
              [Message.mk "ma" "A" Role.assistant "old" "t"] [])
            (WindowState.mk [] [] [] [])).messages =
          [Message.mk "ma" "A" Role.assistant "old" "t"] ∧
        (loadConversationResponse
            (ConversationData.mk "A"
              [Message.mk "ma" "A" Role.assistant "old" "t"] [])
            (WindowState.mk [] [] [] [])).documents = dedupeById [] ∧
        (loadConversationResponse
            (ConversationData.mk "A"
              [Message.mk "ma" "A" Role.assistant "old" "t"] [])
            (WindowState.mk [] [] [] [])).processingDocs =
          computeProcessing (dedupeById [])) :=
  ⟨by decide,
    fetch_response_applied_without_identity_check "B"
      (ConversationData.mk "A"
        [Message.mk "ma" "A" Role.assistant "old" "t"] [])
      (WindowState.mk [] [] [] []) (by decide)⟩

/-- C6: a `doc_processed` push event with no document identifier is
ignored — the component state (messages, documents, selection, processing
set) is returned unchanged, no reload is scheduled and no toast shown. -/
theorem malformed_doc_processed_event_is_ignored
    (st : Option String) (ch : Option Nat) (s : WindowState) :
    (docProcessedHandler (DocProcessedEvent.mk none st ch) s).state = s ∧
      (docProcessedHandler (DocProcessedEvent.mk none st ch)
        s).reloadScheduled = false ∧
      (docProcessedHandler (DocProcessedEvent.mk none st ch) s).toasts =
        [] :=
  ⟨rfl, rfl, rfl⟩

/-- C7: the document click path toggles grounding selection only for a
document whose derived state is Ready: a non-Ready (e.g. Processing)
document leaves the selection unchanged, a Ready document is removed when
selected and appended when not. -/
theorem grounding_toggle_gated_on_ready (doc : Document) (sel : List String) :
    (isDocumentReady doc = false → handleDocumentClick doc sel = sel) ∧
      (isDocumentReady doc = true →
        (doc.id ∈ sel →
          handleDocumentClick doc sel = setDelete sel doc.id ∧
            doc.id ∉ handleDocumentClick doc sel) ∧
        (doc.id ∉ sel →
          handleDocumentClick doc sel = setAdd sel doc.id ∧
            doc.id ∈ handleDocumentClick doc sel)) := by
  refine ⟨?_, ?_⟩
  · intro h
    simp [handleDocumentClick, h]
  · intro h
    constructor
    · intro hmem
      have hc : handleDocumentClick doc sel = setDelete sel doc.id := by
        simp [handleDocumentClick, h, toggleDocumentSelection, setHas, hmem]
      refine ⟨hc, ?_⟩
      rw [hc]
      simp [setDelete, List.mem_filter]
    · intro hmem
      have hc : handleDocumentClick doc sel = setAdd sel doc.id := by
        simp [handleDocumentClick, h, toggleDocumentSelection, setHas, hmem]
      refine ⟨hc, ?_⟩
      rw [hc]
      simp [setAdd, hmem]

/-- Witness for C7: a Processing document's click is a no-op; a Ready
document's click selects it. -/
theorem grounding_toggle_gated_on_ready_witness :
    handleDocumentClick
        (Document.mk "d1" (some "c1") "a.pdf" "/a"
          (some "Processing...") "t" none) ["d9"] = ["d9"] ∧
      handleDocumentClick
          (Document.mk "d2" (some "c1") "b.pdf" "/b"
            (some "Processed: 3 chunks") "t" none) ["d9"] =
        setAdd ["d9"] "d2" :=
  ⟨(grounding_toggle_gated_on_ready
      (Document.mk "d1" (some "c1") "a.pdf" "/a"
        (some "Processing...") "t" none) ["d9"]).1 (by decide),
    ((((grounding_toggle_gated_on_ready
        (Document.mk "d2" (some "c1") "b.pdf" "/b"
          (some "Processed: 3 chunks") "t" none) ["d9"]).2
      (by decide)).2) (by decide)).1⟩

/-- C8's counterexample: switching the active conversation to "B" while
document "d1" is selected leaves the selection set nonempty — the claim
that the selection is empty after every switch is false on this code. -/
theorem conversation_switch_leaves_selection_nonempty_concrete :
    (switchConversation (ConversationData.mk "B" [] [])
        (WindowState.mk [] [] ["d1"] [])).selectedDocIds ≠ [] := by
  decide

/-- C8 amended: a conversation switch (effect cleanup, `conversation`
effect, `loadConversation` response) replaces messages, documents and the
processing set with the new conversation's data but never writes the
grounding selection set — the selection survives the switch unchanged.
(Only explicit user actions clear it; unmounting the component discards
all state trivially.) -/
theorem conversation_switch_preserves_selection
    (newConv : ConversationData) (s : WindowState) :
    (switchConversation newConv s).selectedDocIds = s.selectedDocIds ∧
      (switchConversation newConv s).messages = newConv.messages ∧
      (switchConversation newConv s).documents =
        dedupeById newConv.documents :=
  ⟨rfl, rfl, rfl⟩

/-- C10: a document with no `content_snippet` and no `embedding` is in
neither derived lifecycle state: it is not Ready, it does not test as
processing, clicking it never changes the grounding selection, and a fetch
whose documents are all of this shape yields an empty processing set (so
the polling fallback is not kept alive). -/
theorem absent_marker_and_embedding_neither_ready_nor_processing
    (doc : Document) (sel : List String)
    (hs : doc.content_snippet = none) (he : doc.embedding = none) :
    isDocumentReady doc = false ∧ isProcessingDoc doc = false ∧
      handleDocumentClick doc sel = sel ∧
      ∀ (data : ConversationData) (s : WindowState),
        (∀ d ∈ data.documents,
          d.content_snippet = none ∧ d.embedding = none) →
        (loadConversationResponse data s).processingDocs = [] := by
  have hready : isDocumentReady doc = false := by
    simp [isDocumentReady, hs, he, strTruthy]
  have hproc : isProcessingDoc doc = false := by
    simp [isProcessingDoc, hs, strTruthy]
  refine ⟨hready, hproc, ?_, ?_⟩
  · simp [handleDocumentClick, hready]
  · intro data s hall
    show computeProcessing (dedupeById data.documents) = []
    apply computeProcessing_eq_nil
    intro d hd
    obtain ⟨h1, _⟩ := hall d (mem_dedupeById hd)
    simp [isProcessingDoc, h1, strTruthy]

/-- Witness for C10 at a concrete field-less document and fetch. -/
theorem absent_marker_and_embedding_neither_ready_nor_processing_witness :
    isDocumentReady
        (Document.mk "d1" (some "c1") "f.pdf" "/f" none "t" none) = false ∧
      isProcessingDoc
        (Document.mk "d1" (some "c1") "f.pdf" "/f" none "t" none) = false ∧
      handleDocumentClick
        (Document.mk "d1" (some "c1") "f.pdf" "/f" none "t" none) ["x"] =
        ["x"] ∧
      (loadConversationResponse
          (ConversationData.mk "c1" []
            [Document.mk "d1" (some "c1") "f.pdf" "/f" none "t" none])
          (WindowState.mk [] [] [] [])).processingDocs = [] :=
  have h := absent_marker_and_embedding_neither_ready_nor_processing
    (Document.mk "d1" (some "c1") "f.pdf" "/f" none "t" none) ["x"]
    rfl rfl
  ⟨h.1, h.2.1, h.2.2.1,
    h.2.2.2
      (ConversationData.mk "c1" []
        [Document.mk "d1" (some "c1") "f.pdf" "/f" none "t" none])
      (WindowState.mk [] [] [] []) (by decide)⟩

/-- A registered socket.io listener, identified by function reference.
`plain cb` is the callback itself; `logWrapped cb` is the distinct
anonymous arrow function `(data) => { console.log(...); cb(data) }` that
`onDocumentProcessed` in `socket.ts` (lines 69–72) creates around the
callback — a different reference from `plain cb`. Callbacks are named by a
`Nat` reference identifier. -/
inductive Handler
  | plain (cb : Nat)
  | logWrapped (cb : Nat)
deriving DecidableEq, Repr

/-- The listener lists the socket.io connection keeps for the two event
kinds the core consumes (`new_message`, `doc_processed`). `socket.on`
appends a listener; `socket.off(event, fn)` removes the listeners that are
reference-equal to `fn`. -/
structure SocketState where
  newMessageHandlers : List Handler
  docProcessedHandlers : List Handler
deriving DecidableEq, Repr

/-- `onMessage` from `socket.ts` (lines 54–58):
`socket.on("new_message", callback)` — registers the callback itself. -/
def onMessage (cb : Nat) (s : SocketState) : SocketState :=
  { s with newMessageHandlers := s.newMessageHandlers ++ [Handler.plain cb] }

/-- `offMessage` (lines 60–64): `socket.off("new_message", callback)` —
removes listeners reference-equal to the callback. -/
def offMessage (cb : Nat) (s : SocketState) : SocketState :=
  { s with
    newMessageHandlers :=
      s.newMessageHandlers.filter (fun h => h ≠ Handler.plain cb) }

/-- `onDocumentProcessed` (lines 66–76):
`socket.on("doc_processed", (data) => { console.log(...); callback(data) })`
— registers a fresh anonymous wrapper around the callback, not the
callback itself. -/
def onDocumentProcessed (cb : Nat) (s : SocketState) : SocketState :=
  { s with
    docProcessedHandlers :=
      s.docProcessedHandlers ++ [Handler.logWrapped cb] }

/-- `offDocumentProcessed` (lines 78–82):
`socket.off("doc_processed", callback)` — removes listeners
reference-equal to the original callback (which was never registered). -/
def offDocumentProcessed (cb : Nat) (s : SocketState) : SocketState :=
  { s with
    docProcessedHandlers :=
      s.docProcessedHandlers.filter (fun h => h ≠ Handler.plain cb) }

/-- C9: on a connection with no listeners, subscribing then unsubscribing
the same callback reference leaves the `new_message` kind empty — but for
the `doc_processed` kind the logging wrapper registered by
`onDocumentProcessed` survives `offDocumentProcessed`, so one listener of
that kind remains: removal by reference fails for `doc_processed`,
contradicting the cleanup in `ConversationWindow.tsx` (lines 61–63) that
relies on it. -/
theorem doc_processed_unsubscribe_leaves_wrapper_registered :
    (offMessage 0 (onMessage 0 (SocketState.mk [] []))).newMessageHandlers =
        [] ∧
      (offDocumentProcessed 0
          (onDocumentProcessed 0
            (SocketState.mk [] []))).docProcessedHandlers =
        [Handler.logWrapped 0] := by
  decide

end BotGpt
